import Mathlib

/-!
Verification of `unreal_window_manager.py` against its design document.

The file shallowly embeds the window-manager module.  The Win32 API is
external to the program, so it is modelled by oracles:

* `PosOracle` answers, for each positioning attempt of `position_window`
  (identified by window handle, requested rectangle and attempt number),
  either `none` — the attempt raised an exception inside the Win32 calls —
  or `some (ax, ay)`, the origin that `GetWindowRect` reads back after the
  geometry was applied.
* `DetectEnv` answers, for each iteration of the detection loop, the
  role-to-handle map that `find_unreal_windows` would compute from the
  currently visible top-level windows.

Window titles are modelled as `List Char`; the Python substring operator
`needle in hay` is the executable `containsSub`.
-/

/-- Win32 window handles are opaque integers. -/
abbrev Handle := Nat

/-- The four logical window roles, i.e. the keys of the dictionary returned
by `find_unreal_windows` (`Server`, `Client 1`, `Client 2`, `Client 3`). -/
inductive Role
  | server
  | client1
  | client2
  | client3
deriving DecidableEq, Repr

/-- The list `self.window_keys = ['Server', 'Client 1', 'Client 2', 'Client 3']`. -/
def allRoles : List Role := [Role.server, Role.client1, Role.client2, Role.client3]

/-- Prefix test on character lists, the base case of substring containment. -/
def isPrefixList : List Char → List Char → Bool
  | [], _ => true
  | _ :: _, [] => false
  | a :: as, b :: bs => a == b && isPrefixList as bs

/-- Python's substring operator `needle in hay` on character lists. -/
def containsSub (needle : List Char) : List Char → Bool
  | [] => needle.isEmpty
  | c :: t => isPrefixList needle (c :: t) || containsSub needle t

/-- Substring containment with a string literal needle, as written in the
source (`"Preview" in title`). -/
def subIn (needle : String) (hay : List Char) : Bool := containsSub needle.toList hay

/-- The classification of a single visible window title inside the
`enum_callback` of `find_unreal_windows`: both marker substrings must be
present, then the four role substrings are tried in order (`if` /
`elif` chain), so the first match wins. -/
def classifyTitle (title : List Char) : Option Role :=
  if subIn "Preview" title && subIn "NetMode:" title then
    if subIn "Server" title then some Role.server
    else if subIn "Client 1" title then some Role.client1
    else if subIn "Client 2" title then some Role.client2
    else if subIn "Client 3" title then some Role.client3
    else none
  else none

/-- A top-level OS window as seen by `EnumWindows`: a handle, a visibility
flag (`IsWindowVisible`) and a title (`GetWindowText`). -/
structure OSWindow where
  hwnd : Handle
  visible : Bool
  title : List Char

/-- One step of the `EnumWindows` callback: a visible window whose title
classifies to a role overwrites that role's entry in the accumulator
dictionary; every other window leaves it untouched. -/
def enumStep (acc : Role → Option Handle) (w : OSWindow) : Role → Option Handle :=
  if w.visible then
    match classifyTitle w.title with
    | some r => fun r2 => if r2 = r then some w.hwnd else acc r2
    | none => acc
  else acc

/-- The dictionary built by `find_unreal_windows`: windows are enumerated in
order and each classified visible window overwrites the entry for its role. -/
def find_unreal_windows (ws : List OSWindow) : Role → Option Handle :=
  ws.foldl enumStep (fun _ => none)

/-- Number of roles present in a role map, i.e. `len(windows)` for the
dictionary returned by `find_unreal_windows`. -/
def roleMapCount (m : Role → Option Handle) : Nat :=
  (allRoles.filter fun r => (m r).isSome).length

/-- Outcome of one attempt of `position_window`: `none` models an exception
raised by a Win32 call (caught by the `except` branch), `some (ax, ay)`
models the origin read back by `GetWindowRect` after applying the geometry.
Indexed by handle, requested rectangle `(x, y, width, height)` and attempt
number. -/
abbrev PosOracle := Handle → Int → Int → Int → Int → Nat → Option (Int × Int)

/-- The tolerance check of `position_window`:
`abs(actual_x - x) <= 10 and abs(actual_y - y) <= 10`. -/
def withinTol (reqx reqy actx acty : Int) : Bool :=
  decide ((actx - reqx).natAbs ≤ 10) && decide ((acty - reqy).natAbs ≤ 10)

/-- The retry loop `for attempt in range(retries)` of `position_window`:
`rem` attempts remain, `attempt` is the current attempt index.  An in-tolerance
read-back returns `True`; an exception or an out-of-tolerance read-back falls
through to the next attempt; exhausting the attempts returns `False`. -/
def positionWindowAux (os : PosOracle) (hwnd : Handle) (x y w h : Int) :
    Nat → Nat → Bool
  | 0, _ => false
  | rem + 1, attempt =>
    match os hwnd x y w h attempt with
    | none => positionWindowAux os hwnd x y w h rem (attempt + 1)
    | some act =>
      if withinTol x y act.1 act.2 then true
      else positionWindowAux os hwnd x y w h rem (attempt + 1)

/-- `position_window(hwnd, x, y, width, height, retries=3)`. -/
def position_window (os : PosOracle) (hwnd : Handle) (x y w h : Int)
    (retries : Nat := 3) : Bool :=
  positionWindowAux os hwnd x y w h retries 0

/-- `self.positions`: the four fixed display rectangles `(x, y, width, height)`. -/
def positions : List (Int × Int × Int × Int) :=
  [(0, 0, 480, 800), (480, 0, 480, 800), (960, 0, 480, 800), (1440, 0, 480, 800)]

/-- `self.positions[pos_idx]`.  All call sites index with `pos_idx < 4`
(orders are length 4 after validation), so the default is never reached. -/
def slotRect (i : Nat) : Int × Int × Int × Int := positions.getD i (0, 0, 0, 0)

/-- Mutable state of `UnrealWindowManager`: `self.window_handles` (a dict
from 1-indexed role number to handle, kept as an association list) and
`self.current_order`. -/
structure ManagerState where
  window_handles : List (Nat × Handle)
  current_order : List Nat
deriving DecidableEq, Repr

/-- The state set up by `__init__`: no handles, default order `[4, 2, 3, 1]`. -/
def initManager : ManagerState :=
  { window_handles := [], current_order := [4, 2, 3, 1] }

/-- The loop shared by `position_all_windows` and `reorder_windows`:
`for pos_idx, window_idx in enumerate(order)` — slots whose window index has
no stored handle are skipped, each successful `position_window` call
increments the success count. -/
def placePassAux (os : PosOracle) (handles : List (Nat × Handle)) :
    List Nat → Nat → Nat
  | [], _ => 0
  | windowIdx :: rest, posIdx =>
    match handles.lookup windowIdx with
    | some hwnd =>
      match slotRect posIdx with
      | (x, y, w, h) =>
        (if position_window os hwnd x y w h then 1 else 0) +
          placePassAux os handles rest (posIdx + 1)
    | none => placePassAux os handles rest (posIdx + 1)

/-- Success count of a full placement pass starting at slot 0. -/
def placePass (os : PosOracle) (handles : List (Nat × Handle))
    (order : List Nat) : Nat :=
  placePassAux os handles order 0

/-- The handle-map rebuild at the top of `position_all_windows`:
`self.window_handles = {}` followed by
`for i, window_key in enumerate(self.window_keys): if window_key in windows:
self.window_handles[i + 1] = windows[window_key]`. -/
def handlesFromWindows (m : Role → Option Handle) : List (Nat × Handle) :=
  (match m Role.server with | some h => [(1, h)] | none => []) ++
  (match m Role.client1 with | some h => [(2, h)] | none => []) ++
  (match m Role.client2 with | some h => [(3, h)] | none => []) ++
  (match m Role.client3 with | some h => [(4, h)] | none => [])

/-- `position_all_windows(windows)`: replaces the stored handle map with the
newly classified windows and applies `self.current_order` to the slots,
returning the success count and the new state. -/
def position_all_windows (os : PosOracle) (st : ManagerState)
    (windows : Role → Option Handle) : Nat × ManagerState :=
  let handles := handlesFromWindows windows
  (placePass os handles st.current_order, { st with window_handles := handles })

/-- The JSON-style result dictionary returned by `reorder_windows`. -/
structure ReorderResult where
  success : Bool
  message : String
  order : Option (List Nat)
deriving DecidableEq, Repr

/-- `reorder_windows(new_order)`: three input validations, the
windows-present check, then the state update and the placement pass. -/
def reorder_windows (os : PosOracle) (st : ManagerState) (new_order : List Nat) :
    ReorderResult × ManagerState :=
  if new_order.length ≠ 4 then
    ({ success := false, message := "Order must contain exactly 4 values",
       order := none }, st)
  else if ¬ (∀ x ∈ new_order, 1 ≤ x ∧ x ≤ 4) then
    ({ success := false, message := "All values must be between 1 and 4",
       order := none }, st)
  else if new_order.dedup.length ≠ 4 then
    ({ success := false, message := "All values must be unique",
       order := none }, st)
  else if st.window_handles = [] then
    ({ success := false, message := "No windows found. Start the game first.",
       order := none }, st)
  else if placePass os st.window_handles new_order = 4 then
    ({ success := true,
       message := "Successfully reordered to " ++ toString new_order,
       order := some new_order }, { st with current_order := new_order })
  else
    ({ success := false,
       message := "Only positioned " ++
         toString (placePass os st.window_handles new_order) ++ "/4 windows",
       order := some new_order }, { st with current_order := new_order })

/-- The status dictionary returned by `get_status`; `window_mapping` is the
constant role-label table. -/
structure StatusResult where
  windows_found : Nat
  current_order : List Nat
  window_mapping : List (String × String)
deriving DecidableEq, Repr

/-- `get_status()`. -/
def get_status (st : ManagerState) : StatusResult :=
  { windows_found := st.window_handles.length,
    current_order := st.current_order,
    window_mapping :=
      [("1", "Server"), ("2", "Client 1"), ("3", "Client 2"), ("4", "Client 3")] }

/-- The `/reorder` route of `create_http_server`:
`status_code = 200 if result['success'] else 400`. -/
def reorderHttpStatus (r : ReorderResult) : Nat := if r.success then 200 else 400

/-- Detection environment: the role map that `find_unreal_windows` would
return at poll iteration `k` of the detection loop. -/
abbrev DetectEnv := Nat → Role → Option Handle

/-- Result of `wait_and_position`, with a ghost counter of how many placement
passes (`position_all_windows` calls) the run performed. -/
structure LoopOut where
  success : Bool
  state : ManagerState
  passes : Nat
deriving DecidableEq, Repr

/-- The polling loop of `wait_and_position`: `fuel` poll iterations remain
before the timeout, `k` is the current iteration.  Once at least four roles
are detected the loop performs one `position_all_windows` pass and returns
`True` (regardless of the pass's success count); if the timeout elapses
first, it returns `False`. -/
def waitLoop (os : PosOracle) (env : DetectEnv) (st : ManagerState) :
    Nat → Nat → LoopOut
  | 0, _ => { success := false, state := st, passes := 0 }
  | fuel + 1, k =>
    let windows := env k
    if 4 ≤ roleMapCount windows then
      let out := position_all_windows os st windows
      { success := true, state := out.2, passes := 1 }
    else waitLoop os env st fuel (k + 1)

/-- `wait_and_position(timeout, check_interval)` with the timeout expressed
as the number of polls it allows. -/
def wait_and_position (os : PosOracle) (env : DetectEnv) (st : ManagerState)
    (maxPolls : Nat) : LoopOut :=
  waitLoop os env st maxPolls 0

/-- The input validation of `reorder_windows` (length, range, distinctness):
exactly the three checks at the top of the method. -/
def isValidOrder (l : List Nat) : Bool :=
  decide (l.length = 4) && decide (∀ x ∈ l, 1 ≤ x ∧ x ≤ 4) &&
    decide (l.dedup.length = 4)

/-- Full validation of a reorder request: the three input checks plus the
windows-present check.  When this is `false`, `reorder_windows` returns one
of its four early failures without touching the state. -/
def reorderValidates (st : ManagerState) (l : List Nat) : Bool :=
  isValidOrder l && !decide (st.window_handles = [])

/-- The order invariant of the design document: `current_order` has exactly
four entries, each in `1..4`, with no duplicates. -/
def orderInvariant (l : List Nat) : Bool :=
  decide (l.length = 4) && decide (∀ x ∈ l, 1 ≤ x ∧ x ≤ 4) && decide l.Nodup

/-- The role-identifying substrings in the precedence order of the
`if` / `elif` chain of `find_unreal_windows`. -/
def roleNeedles : List (Role × String) :=
  [(Role.server, "Server"), (Role.client1, "Client 1"),
   (Role.client2, "Client 2"), (Role.client3, "Client 3")]

/-- The first role (in precedence order) whose identifying substring occurs
in the title.  This is the design document's reading of the classifier:
an ordered list of predicates, first match wins. -/
def firstMatchingRole (title : List Char) : Option Role :=
  (roleNeedles.find? fun q => subIn q.2 title).map Prod.fst

/-- An oracle on which every positioning attempt raises inside the Win32
calls (or, equivalently, never converges), so every placement fails. -/
def cxOracle : PosOracle := fun _ _ _ _ _ _ => none

/-- An oracle on which every geometry request is applied exactly: the
read-back origin always equals the requested origin. -/
def goodOracle : PosOracle := fun _ x y _ _ _ => some (x, y)

/-- A state in which only the Server window was ever detected. -/
def cxState : ManagerState :=
  { window_handles := [(1, 100)], current_order := [4, 2, 3, 1] }

/-- A state in which all four windows had been detected. -/
def staleState : ManagerState :=
  { window_handles := [(1, 10), (2, 20), (3, 30), (4, 40)],
    current_order := [4, 2, 3, 1] }

/-- A classification result in which only the Server window is visible. -/
def partialWindows : Role → Option Handle :=
  fun r => if r = Role.server then some 10 else none

/-- A state in which three of the four windows were detected. -/
def threeState : ManagerState :=
  { window_handles := [(1, 10), (2, 20), (3, 30)], current_order := [4, 2, 3, 1] }

example : classifyTitle "MyGame Preview [NetMode: Server]".toList = some Role.server := by
  decide

example : classifyTitle "MyGame Preview [NetMode: Client 2]".toList = some Role.client2 := by
  decide

example : classifyTitle "MyGame [NetMode: Client 2]".toList = none := by
  decide

example :
    (reorder_windows (fun _ _ _ _ _ _ => none) initManager [1, 2, 2, 3]).1.message =
      "All values must be unique" := by
  decide

/-! ## Helper lemmas -/

theorem find_foldl_mem (ws : List OSWindow) :
    ∀ (acc : Role → Option Handle) (r : Role) (h : Handle),
      (ws.foldl enumStep acc) r = some h →
      acc r = some h ∨
        ∃ w ∈ ws, w.visible = true ∧ classifyTitle w.title = some r ∧ w.hwnd = h := by
  induction ws with
  | nil => intro acc r h hf; exact Or.inl hf
  | cons w rest ih =>
    intro acc r h hf
    simp only [List.foldl_cons] at hf
    rcases ih (enumStep acc w) r h hf with hacc | ⟨w', hw', hv, hc, hh⟩
    · unfold enumStep at hacc
      by_cases hvis : w.visible = true
      · simp only [hvis, if_true] at hacc
        cases hcl : classifyTitle w.title with
        | none => rw [hcl] at hacc; exact Or.inl hacc
        | some r0 =>
          rw [hcl] at hacc
          by_cases hr : r = r0
          · subst hr
            simp only [if_pos rfl] at hacc
            exact Or.inr ⟨w, List.mem_cons_self w rest, hvis, hcl,
              Option.some_inj.mp hacc⟩
          · simp only [if_neg hr] at hacc
            exact Or.inl hacc
      · simp only [Bool.not_eq_true] at hvis
        simp only [hvis, Bool.false_eq_true, if_false] at hacc
        exact Or.inl hacc
    · exact Or.inr ⟨w', List.mem_cons_of_mem w hw', hv, hc, hh⟩

theorem posAux_true_iff (os : PosOracle) (hwnd : Handle) (x y w h : Int) :
    ∀ (rem att : Nat),
      positionWindowAux os hwnd x y w h rem att = true ↔
        ∃ j, j < rem ∧ ∃ act, os hwnd x y w h (att + j) = some act ∧
          withinTol x y act.1 act.2 = true := by
  intro rem
  induction rem with
  | zero => intro att; simp [positionWindowAux]
  | succ n ih =>
    intro att
    simp only [positionWindowAux]
    cases hos : os hwnd x y w h att with
    | none =>
      simp only [hos]
      rw [ih (att + 1)]
      constructor
      · rintro ⟨j, hj, act, ha, ht⟩
        refine ⟨j + 1, by omega, act, ?_, ht⟩
        have he : att + (j + 1) = att + 1 + j := by omega
        rw [he]; exact ha
      · rintro ⟨j, hj, act, ha, ht⟩
        cases j with
        | zero =>
          rw [Nat.add_zero, hos] at ha
          exact absurd ha (by simp)
        | succ j' =>
          refine ⟨j', by omega, act, ?_, ht⟩
          have he : att + 1 + j' = att + (j' + 1) := by omega
          rw [he]; exact ha
    | some act0 =>
      simp only [hos]
      by_cases htol : withinTol x y act0.1 act0.2 = true
      · simp only [htol, if_true, true_iff]
        exact ⟨0, Nat.succ_pos n, act0, by rw [Nat.add_zero]; exact hos, htol⟩
      · rw [if_neg htol, ih (att + 1)]
        constructor
        · rintro ⟨j, hj, act, ha, ht⟩
          refine ⟨j + 1, by omega, act, ?_, ht⟩
          have he : att + (j + 1) = att + 1 + j := by omega
          rw [he]; exact ha
        · rintro ⟨j, hj, act, ha, ht⟩
          cases j with
          | zero =>
            rw [Nat.add_zero, hos] at ha
            rw [Option.some_inj.mp ha] at htol
            exact absurd ht htol
          | succ j' =>
            refine ⟨j', by omega, act, ?_, ht⟩
            have he : att + 1 + j' = att + (j' + 1) := by omega
            rw [he]; exact ha

/-- C4: a visible window title is assigned a role by the classifier exactly
when it contains both marker substrings (`Preview`, `NetMode:`) and some
role-identifying substring, the role being the first match in the fixed
precedence order Server, Client 1, Client 2, Client 3 (so at most one role
per title); and every entry of the map built by `find_unreal_windows` comes
from a visible window so classified — roles with no such window are simply
absent and classification never errors. -/
theorem classify_marker_precedence :
    (∀ (t : List Char) (r : Role),
      classifyTitle t = some r ↔
        (subIn "Preview" t = true ∧ subIn "NetMode:" t = true ∧
          firstMatchingRole t = some r)) ∧
    (∀ (ws : List OSWindow) (r : Role) (h : Handle),
      find_unreal_windows ws r = some h →
        ∃ w ∈ ws, w.visible = true ∧ classifyTitle w.title = some r ∧ w.hwnd = h) := by
  constructor
  · intro t r
    cases hS : subIn "Server" t <;> cases hC1 : subIn "Client 1" t <;>
      cases hC2 : subIn "Client 2" t <;> cases hC3 : subIn "Client 3" t <;>
      cases hP : subIn "Preview" t <;> cases hN : subIn "NetMode:" t <;>
      simp [classifyTitle, firstMatchingRole, roleNeedles, hS, hC1, hC2, hC3,
        hP, hN]
  · intro ws r h hf
    rcases find_foldl_mem ws (fun _ => none) r h hf with hacc | hex
    · cases hacc
    · exact hex

/-- C5: a positioning attempt of `position_window` succeeds exactly when
some attempt's read-back origin is within the 10-unit per-axis tolerance of
the requested origin; out-of-tolerance (or raising) attempts are retried up
to the `retries` bound, and when every attempt misses the tolerance the call
returns failure instead of raising. -/
theorem position_window_tolerance_retries (os : PosOracle) (hwnd : Handle)
    (x y w h : Int) (retries : Nat) :
    position_window os hwnd x y w h retries = true ↔
      ∃ k, k < retries ∧ ∃ act, os hwnd x y w h k = some act ∧
        withinTol x y act.1 act.2 = true := by
  unfold position_window
  simpa using posAux_true_iff os hwnd x y w h retries 0

theorem nodup_of_dedup_length {l : List Nat} (h4 : l.length = 4)
    (hd : l.dedup.length = 4) : l.Nodup := by
  have hsub : List.Sublist l.dedup l := l.dedup_sublist
  have heq : l.dedup = l := hsub.eq_of_length (by omega)
  exact List.dedup_eq_self.mp heq

theorem reorder_windows_invalid_state (os : PosOracle) (st : ManagerState)
    (p : List Nat) (hv : reorderValidates st p = false) :
    (reorder_windows os st p).2 = st := by
  unfold reorder_windows
  split_ifs with h1 h2 h3 h4 h5 <;> try rfl
  all_goals
    exfalso
    have hvt : reorderValidates st p = true := by
      simp only [reorderValidates, isValidOrder, Bool.and_eq_true,
        decide_eq_true_eq, Bool.not_eq_true', decide_eq_false_iff_not]
      exact ⟨⟨⟨by omega, by assumption⟩, by omega⟩, by assumption⟩
    rw [hvt] at hv
    cases hv

theorem reorder_windows_valid_eq (os : PosOracle) (st : ManagerState)
    (p : List Nat) (hv : reorderValidates st p = true) :
    reorder_windows os st p =
      if placePass os st.window_handles p = 4 then
        (({ success := true,
            message := "Successfully reordered to " ++ toString p,
            order := some p } : ReorderResult),
         { st with current_order := p })
      else
        (({ success := false,
            message := "Only positioned " ++
              toString (placePass os st.window_handles p) ++ "/4 windows",
            order := some p } : ReorderResult),
         { st with current_order := p }) := by
  simp only [reorderValidates, isValidOrder, Bool.and_eq_true,
    Bool.not_eq_true', decide_eq_true_eq, decide_eq_false_iff_not] at hv
  obtain ⟨⟨⟨h1, h2⟩, h3⟩, h4⟩ := hv
  unfold reorder_windows
  rw [if_neg (by omega), if_neg (not_not.mpr h2), if_neg (by omega),
    if_neg h4]

theorem reorder_windows_invalid_success (os : PosOracle) (st : ManagerState)
    (p : List Nat) (hv : reorderValidates st p = false) :
    (reorder_windows os st p).1.success = false := by
  unfold reorder_windows
  split_ifs with h1 h2 h3 h4 h5 <;> try rfl
  all_goals
    exfalso
    have hvt : reorderValidates st p = true := by
      simp only [reorderValidates, isValidOrder, Bool.and_eq_true,
        decide_eq_true_eq, Bool.not_eq_true', decide_eq_false_iff_not]
      exact ⟨⟨⟨by omega, by assumption⟩, by omega⟩, by assumption⟩
    rw [hvt] at hv
    cases hv

theorem waitLoop_state_order (os : PosOracle) (env : DetectEnv) :
    ∀ (fuel k : Nat) (st : ManagerState),
      ((waitLoop os env st fuel k).state).current_order = st.current_order := by
  intro fuel
  induction fuel with
  | zero => intro k st; rfl
  | succ n ih =>
    intro k st
    simp only [waitLoop]
    split_ifs with hc
    · simp [position_all_windows]
    · exact ih (k + 1) st

/-- C2: `current_order` is a permutation of the role indices 1..4 — exactly
four entries, each in 1..4, no duplicates — at initialization and after
every operation that can mutate the state (`reorder_windows`,
`position_all_windows`, `wait_and_position`). -/
theorem current_order_always_permutation :
    orderInvariant initManager.current_order = true ∧
    (∀ (os : PosOracle) (st : ManagerState) (p : List Nat),
      orderInvariant st.current_order = true →
      orderInvariant ((reorder_windows os st p).2).current_order = true) ∧
    (∀ (os : PosOracle) (st : ManagerState) (wmap : Role → Option Handle),
      orderInvariant st.current_order = true →
      orderInvariant ((position_all_windows os st wmap).2).current_order = true) ∧
    (∀ (os : PosOracle) (env : DetectEnv) (st : ManagerState) (n : Nat),
      orderInvariant st.current_order = true →
      orderInvariant ((wait_and_position os env st n).state).current_order = true) := by
  refine ⟨by decide, ?_, ?_, ?_⟩
  · intro os st p hst
    by_cases hv : reorderValidates st p = true
    · rw [reorder_windows_valid_eq os st p hv]
      have hv' := hv
      simp only [reorderValidates, isValidOrder, Bool.and_eq_true,
        Bool.not_eq_true', decide_eq_true_eq, decide_eq_false_iff_not] at hv'
      obtain ⟨⟨⟨h1, h2⟩, h3⟩, h4⟩ := hv'
      have hnd : p.Nodup := nodup_of_dedup_length h1 h3
      split_ifs <;> (simp [orderInvariant, h1, hnd]; exact h2)
    · rw [reorder_windows_invalid_state os st p (by simpa using hv)]
      exact hst
  · intro os st wmap hst
    simpa [position_all_windows] using hst
  · intro os env st n hst
    rw [wait_and_position, waitLoop_state_order]
    exact hst

theorem current_order_always_permutation_witness :
    orderInvariant ((reorder_windows cxOracle initManager [1, 2, 3, 4]).2).current_order = true :=
  current_order_always_permutation.2.1 cxOracle initManager [1, 2, 3, 4] (by decide)

/-- C3: `reorder_windows` rejects every input whose length is not 4, that
contains a value outside 1..4, or that contains a duplicate: the result is a
structured failure, the state is unchanged, and the HTTP layer maps it to
status 400; a length-4 in-range input with a duplicate yields exactly the
message `All values must be unique`. -/
theorem reorder_rejects_invalid_inputs (os : PosOracle) (st : ManagerState)
    (l : List Nat)
    (hbad : l.length ≠ 4 ∨ (∃ x ∈ l, x < 1 ∨ 4 < x) ∨ ¬ l.Nodup) :
    ((reorder_windows os st l).1.success = false ∧
     (reorder_windows os st l).2 = st ∧
     reorderHttpStatus (reorder_windows os st l).1 = 400) ∧
    (l.length = 4 → (∀ x ∈ l, 1 ≤ x ∧ x ≤ 4) → ¬ l.Nodup →
      (reorder_windows os st l).1.message = "All values must be unique") := by
  have hinv : isValidOrder l = false := by
    simp only [isValidOrder, Bool.and_eq_false_iff, decide_eq_false_iff_not]
    rcases hbad with h | h | h
    · exact Or.inl (Or.inl h)
    · refine Or.inl (Or.inr ?_)
      intro hall
      obtain ⟨x, hx, hout⟩ := h
      have := hall x hx
      omega
    · by_cases hl : l.length = 4
      · refine Or.inr ?_
        intro hd
        exact h (nodup_of_dedup_length hl hd)
      · exact Or.inl (Or.inl hl)
  have hv : reorderValidates st l = false := by
    simp [reorderValidates, hinv]
  have hsucc := reorder_windows_invalid_success os st l hv
  refine ⟨⟨hsucc, reorder_windows_invalid_state os st l hv, ?_⟩, ?_⟩
  · simp [reorderHttpStatus, hsucc]
  · intro hlen hrange hnd
    have hd4 : l.dedup.length ≠ 4 := fun hd => hnd (nodup_of_dedup_length hlen hd)
    unfold reorder_windows
    rw [if_neg (by omega), if_neg (not_not.mpr hrange), if_pos hd4]

theorem reorder_rejects_invalid_inputs_witness :
    (reorder_windows cxOracle initManager [1, 2, 2, 3]).1.message = "All values must be unique" ∧
    (reorder_windows cxOracle initManager [1, 2, 2, 3]).2 = initManager ∧
    reorderHttpStatus (reorder_windows cxOracle initManager [1, 2, 2, 3]).1 = 400 :=
  ⟨(reorder_rejects_invalid_inputs cxOracle initManager [1, 2, 2, 3]
      (by decide)).2 (by decide) (by decide) (by decide),
   ((reorder_rejects_invalid_inputs cxOracle initManager [1, 2, 2, 3]
      (by decide)).1).2.1,
   ((reorder_rejects_invalid_inputs cxOracle initManager [1, 2, 2, 3]
      (by decide)).1).2.2⟩

/-- C1 counterexample: with only the Server window detected and an OS on
which no placement ever converges, `reorder_windows [1,2,3,4]` passes
validation, mutates `current_order` to the new permutation, and still
returns failure — so neither branch of the claimed dichotomy ("succeeds with
`current_order = p`" or "fails validation with `current_order` unchanged")
holds. -/
theorem reorder_dichotomy_counterexample :
    ¬ (((reorder_windows cxOracle cxState [1, 2, 3, 4]).1.success = true ∧
        (get_status (reorder_windows cxOracle cxState [1, 2, 3, 4]).2).current_order =
          [1, 2, 3, 4]) ∨
       (reorderValidates cxState [1, 2, 3, 4] = false ∧
        (get_status (reorder_windows cxOracle cxState [1, 2, 3, 4]).2).current_order =
          (get_status cxState).current_order)) := by
  decide

/-- C1 amended: for every permutation `p` of 1..4, either the request fails
validation (for a permutation this can only be the windows-present check)
and the state is unchanged with a failure result, or `current_order` is
updated to `p` and success is reported exactly when all four placements
succeed — a partial placement reports failure while still leaving
`current_order = p`. -/
theorem reorder_trichotomy (os : PosOracle) (st : ManagerState) (p : List Nat)
    (_hp : isValidOrder p = true) :
    (reorderValidates st p = false ∧ (reorder_windows os st p).2 = st ∧
       (reorder_windows os st p).1.success = false) ∨
    (reorderValidates st p = true ∧
       (get_status (reorder_windows os st p).2).current_order = p ∧
       ((reorder_windows os st p).1.success = true ↔
          placePass os st.window_handles p = 4)) := by
  by_cases hv : reorderValidates st p = true
  · right
    refine ⟨hv, ?_, ?_⟩
    · rw [reorder_windows_valid_eq os st p hv]
      split_ifs <;> rfl
    · rw [reorder_windows_valid_eq os st p hv]
      split_ifs with hc <;> simp [hc]
  · left
    have hv' : reorderValidates st p = false := by simpa using hv
    exact ⟨hv', reorder_windows_invalid_state os st p hv',
      reorder_windows_invalid_success os st p hv'⟩

theorem reorder_trichotomy_witness :
    (reorderValidates initManager [1, 2, 3, 4] = false ∧
       (reorder_windows cxOracle initManager [1, 2, 3, 4]).2 = initManager ∧
       (reorder_windows cxOracle initManager [1, 2, 3, 4]).1.success = false) ∨
    (reorderValidates initManager [1, 2, 3, 4] = true ∧
       (get_status (reorder_windows cxOracle initManager [1, 2, 3, 4]).2).current_order =
         [1, 2, 3, 4] ∧
       ((reorder_windows cxOracle initManager [1, 2, 3, 4]).1.success = true ↔
          placePass cxOracle initManager.window_handles [1, 2, 3, 4] = 4)) :=
  reorder_trichotomy cxOracle initManager [1, 2, 3, 4] (by decide)

/-- C6 counterexample: with all four roles previously stored, a rerun of
`position_all_windows` whose classification found only the Server window
deletes the other roles' entries from the stored map, so an operation does
remove a previously detected role's handle. -/
theorem handle_map_entry_removed :
    staleState.window_handles.lookup 2 = some 20 ∧
    ((position_all_windows cxOracle staleState partialWindows).2).window_handles.lookup 2 =
      none := by
  decide

/-- C6 amended: `position_all_windows` replaces the stored role-to-handle
map wholesale with the roles found by the latest classification — roles
absent from that classification lose their entries — while `reorder_windows`
never adds or removes entries. -/
theorem handle_map_lifecycle :
    (∀ (os : PosOracle) (st : ManagerState) (wmap : Role → Option Handle),
      ((position_all_windows os st wmap).2).window_handles = handlesFromWindows wmap) ∧
    (∀ (os : PosOracle) (st : ManagerState) (l : List Nat),
      ((reorder_windows os st l).2).window_handles = st.window_handles) := by
  constructor
  · intro os st wmap
    rfl
  · intro os st l
    unfold reorder_windows
    split_ifs <;> rfl

theorem waitLoop_timeout (os : PosOracle) (env : DetectEnv) :
    ∀ (fuel k : Nat) (st : ManagerState),
      (∀ j, j < fuel → roleMapCount (env (k + j)) < 4) →
      waitLoop os env st fuel k = { success := false, state := st, passes := 0 } := by
  intro fuel
  induction fuel with
  | zero => intro k st _; rfl
  | succ n ih =>
    intro k st hlt
    have h0 : ¬ 4 ≤ roleMapCount (env k) := by
      have h := hlt 0 (Nat.succ_pos n)
      rw [Nat.add_zero] at h
      omega
    simp only [waitLoop]
    rw [if_neg h0]
    apply ih
    intro j hj
    have h := hlt (j + 1) (by omega)
    rw [show k + (j + 1) = k + 1 + j from by omega] at h
    exact h

/-- C7: if the detection loop exhausts its timeout with fewer than all four
roles ever classified, it returns failure, performs no placement pass,
leaves the freshly initialized state untouched, and a subsequent status
query reports zero windows found. -/
theorem detection_timeout_no_placement (os : PosOracle) (env : DetectEnv)
    (n : Nat) (h : ∀ k, k < n → roleMapCount (env k) < 4) :
    (wait_and_position os env initManager n).success = false ∧
    (wait_and_position os env initManager n).passes = 0 ∧
    (wait_and_position os env initManager n).state = initManager ∧
    (get_status (wait_and_position os env initManager n).state).windows_found = 0 := by
  have hz := waitLoop_timeout os env n 0 initManager
    (by intro j hj; rw [Nat.zero_add]; exact h j hj)
  unfold wait_and_position
  rw [hz]
  exact ⟨rfl, rfl, rfl, rfl⟩

theorem detection_timeout_no_placement_witness :
    (wait_and_position cxOracle (fun _ _ => none) initManager 3).success = false ∧
    (wait_and_position cxOracle (fun _ _ => none) initManager 3).passes = 0 ∧
    (wait_and_position cxOracle (fun _ _ => none) initManager 3).state = initManager ∧
    (get_status (wait_and_position cxOracle (fun _ _ => none) initManager 3).state).windows_found = 0 :=
  detection_timeout_no_placement cxOracle (fun _ _ => none) 3 (by decide)

/-- C8: calling `reorder_windows` twice in succession with the same order
(on the same deterministic OS behaviour) yields exactly the same result and
the same final state as one call: the stored order, the stored handle map
and hence every slot's target geometry agree. -/
theorem reorder_idempotent (os : PosOracle) (st : ManagerState) (p : List Nat) :
    reorder_windows os (reorder_windows os st p).2 p = reorder_windows os st p := by
  by_cases hv : reorderValidates st p = true
  · have h2 := reorder_windows_valid_eq os st p hv
    have hsnd : (reorder_windows os st p).2 = { st with current_order := p } := by
      rw [h2]
      split_ifs <;> rfl
    have hv' : reorderValidates { st with current_order := p } p = true := by
      simpa [reorderValidates] using hv
    rw [hsnd, reorder_windows_valid_eq os _ p hv', h2]
  · have hv' : reorderValidates st p = false := by simpa using hv
    rw [reorder_windows_invalid_state os st p hv']

theorem lookup_isSome_iff (l : List (Nat × Handle)) (a : Nat) :
    (l.lookup a).isSome = true ↔ a ∈ l.map Prod.fst := by
  induction l with
  | nil => simp [List.lookup]
  | cons q rest ih =>
    obtain ⟨k, v⟩ := q
    by_cases hk : a = k
    · subst hk
      simp [List.lookup]
    · have hbeq : (a == k) = false := beq_eq_false_iff_ne.mpr hk
      simp only [List.lookup, hbeq, List.map_cons, List.mem_cons]
      rw [ih]
      constructor
      · exact Or.inr
      · rintro (h | h)
        · exact absurd h hk
        · exact h

theorem placePassAux_all_success (os : PosOracle) (handles : List (Nat × Handle))
    (hos : ∀ (hw : Handle) (x y w h : Int), position_window os hw x y w h = true) :
    ∀ (order : List Nat) (pi : Nat),
      placePassAux os handles order pi =
        (order.filter fun v => (handles.lookup v).isSome).length := by
  intro order
  induction order with
  | nil => intro pi; rfl
  | cons a rest ih =>
    intro pi
    simp only [placePassAux]
    cases hl : handles.lookup a with
    | none =>
      rw [ih (pi + 1)]
      simp [List.filter_cons, hl]
    | some hw =>
      rcases hsr : slotRect pi with ⟨x, y, w, h⟩
      simp only [hl, hsr, hos hw x y w h, if_true, ih (pi + 1)]
      simp [List.filter_cons, hl]
      omega

theorem filter_mem_length_of_nodup (keys : List Nat) (p : List Nat)
    (hknd : keys.Nodup) (hpnd : p.Nodup) (hsub : keys ⊆ p) :
    (p.filter fun v => decide (v ∈ keys)).length = keys.length := by
  have hfnd : (p.filter fun v => decide (v ∈ keys)).Nodup := hpnd.filter _
  have hperm : List.Perm (p.filter fun v => decide (v ∈ keys)) keys := by
    rw [List.perm_ext_iff_of_nodup hfnd hknd]
    intro a
    simp only [List.mem_filter, decide_eq_true_eq]
    constructor
    · rintro ⟨_, hk⟩
      exact hk
    · intro hk
      exact ⟨hsub hk, hk⟩
  exact hperm.length_eq

/-- C9: with a valid permutation and a non-empty but incomplete handle map,
`reorder_windows` still updates `current_order` to the new permutation,
silently skips every slot whose assigned role has no stored handle, and
reports failure (message `Only positioned m/4 windows` for `m` the number of
stored handles) even when every attempted placement succeeds — success is
reported only when exactly four placements succeed. -/
theorem reorder_partial_handles (os : PosOracle) (st : ManagerState)
    (p : List Nat) (hp : isValidOrder p = true)
    (hne : st.window_handles ≠ [])
    (hknd : (st.window_handles.map Prod.fst).Nodup)
    (hkrange : ∀ k ∈ st.window_handles.map Prod.fst, 1 ≤ k ∧ k ≤ 4)
    (hlt : st.window_handles.length < 4)
    (hos : ∀ (hw : Handle) (x y w h : Int), position_window os hw x y w h = true) :
    placePass os st.window_handles p = st.window_handles.length ∧
    (reorder_windows os st p).2.current_order = p ∧
    (reorder_windows os st p).1.success = false ∧
    (reorder_windows os st p).1.message =
      "Only positioned " ++ toString st.window_handles.length ++ "/4 windows" := by
  have hval := hp
  simp only [isValidOrder, Bool.and_eq_true, decide_eq_true_eq] at hval
  obtain ⟨⟨h1, h2⟩, h3⟩ := hval
  have hnd : p.Nodup := nodup_of_dedup_length h1 h3
  have hp4 : List.Perm p [1, 2, 3, 4] := by
    have hsub : p ⊆ [1, 2, 3, 4] := by
      intro x hx
      obtain ⟨hx1, hx2⟩ := h2 x hx
      interval_cases x <;> decide
    exact (hnd.subperm hsub).perm_of_length_le (by simp [h1])
  have hkeys_sub : (st.window_handles.map Prod.fst) ⊆ p := by
    intro k hk
    obtain ⟨hk1, hk2⟩ := hkrange k hk
    have hkm : k ∈ [1, 2, 3, 4] := by interval_cases k <;> decide
    exact hp4.mem_iff.mpr hkm
  have hcnt : placePass os st.window_handles p = st.window_handles.length := by
    rw [placePass, placePassAux_all_success os st.window_handles hos p 0]
    have hfc : (p.filter fun v => (st.window_handles.lookup v).isSome) =
        (p.filter fun v => decide (v ∈ st.window_handles.map Prod.fst)) := by
      apply List.filter_congr
      intro x _
      have hiff := lookup_isSome_iff st.window_handles x
      by_cases hmem : x ∈ st.window_handles.map Prod.fst
      · simp [hiff.mpr hmem, hmem]
      · have hfalse : (st.window_handles.lookup x).isSome = false := by
          rw [Bool.eq_false_iff]
          exact fun hcon => hmem (hiff.mp hcon)
        simp [hfalse, hmem]
    rw [hfc,
      filter_mem_length_of_nodup (st.window_handles.map Prod.fst) p hknd hnd hkeys_sub,
      List.length_map]
  have hvTrue : reorderValidates st p = true := by
    simp [reorderValidates, hp, hne]
  have hne4 : placePass os st.window_handles p ≠ 4 := by omega
  refine ⟨hcnt, ?_, ?_, ?_⟩ <;>
    rw [reorder_windows_valid_eq os st p hvTrue, if_neg hne4]
  rw [hcnt]

theorem reorder_partial_handles_witness :
    placePass goodOracle threeState.window_handles [1, 2, 3, 4] =
      threeState.window_handles.length ∧
    (reorder_windows goodOracle threeState [1, 2, 3, 4]).2.current_order = [1, 2, 3, 4] ∧
    (reorder_windows goodOracle threeState [1, 2, 3, 4]).1.success = false ∧
    (reorder_windows goodOracle threeState [1, 2, 3, 4]).1.message =
      "Only positioned " ++ toString threeState.window_handles.length ++ "/4 windows" :=
  reorder_partial_handles goodOracle threeState [1, 2, 3, 4] (by decide) (by decide)
    (by decide) (by decide) (by decide)
    (fun hw x y w h => by
      rw [position_window, posAux_true_iff]
      exact ⟨0, by omega, (x, y), rfl, by simp [withinTol]⟩)

theorem classify_marker_precedence_witness :
    ∃ w ∈ [({ hwnd := 55, visible := true,
              title := "MyGame Preview [NetMode: Client 1]".toList } : OSWindow)],
      w.visible = true ∧ classifyTitle w.title = some Role.client1 ∧ w.hwnd = 55 :=
  classify_marker_precedence.2
    [{ hwnd := 55, visible := true,
       title := "MyGame Preview [NetMode: Client 1]".toList }]
    Role.client1 55 (by decide)
